import Mathlib

/-!
Shallow embedding of the audio-processing pipeline of this repository
(src/src/utils.ts, src/src/trimAndTranscode.ts, src/src/mergeFiles.ts,
src/src/processAudio.ts, src/src/processYouTubeUrl.ts and the revised
trimAndTranscode generation kept in the repository as an unnamed source file).

JavaScript numbers are modelled as rationals; values that the source rounds
with Math.round / Math.floor become integers at exactly the places the code
rounds them.  JavaScript NaN is modelled by Option: parseInt returns
Option Int, none standing for NaN.  Strings are Lean strings, manipulated
through their underlying character lists.
-/

/-! ## JavaScript primitives -/

/-- JS truthiness of a possibly-undefined number: undefined, 0 (and NaN,
which cannot arise for the validated inputs modelled here) are falsy. -/
def jsTruthy (x : Option ℚ) : Bool :=
  match x with
  | none => false
  | some v => v ≠ 0

/-- JS x || y for a possibly-undefined number x : falsy gives y. -/
def jsOr (x : Option ℚ) (y : ℚ) : ℚ :=
  if jsTruthy x then x.getD y else y

/-- JS Math.round: round half toward positive infinity, which is round on ℚ
(Mathlib round x = floor (x + 1/2), exactly the ECMAScript rule). -/
def jsRound (q : ℚ) : ℤ := round q

/-- JS Math.floor. -/
def jsFloor (q : ℚ) : ℤ := ⌊q⌋

/-- JS Math.min on already-rounded integer percentages. -/
def jsMinI (a b : ℤ) : ℤ := min a b

/-- Decimal digit character test, as matched by the parsers below. -/
def isDigitCh (c : Char) : Bool := 48 ≤ c.toNat && c.toNat ≤ 57

/-- Numeric value of a digit character. -/
def digitVal (c : Char) : ℕ := c.toNat - 48

/-- The decimal digit character for d (d assumed below 10). -/
def digitChar : ℕ → Char
  | 0 => '0'
  | 1 => '1'
  | 2 => '2'
  | 3 => '3'
  | 4 => '4'
  | 5 => '5'
  | 6 => '6'
  | 7 => '7'
  | 8 => '8'
  | _ => '9'

/-- Value of a digit string read left to right (the core of parseInt). -/
def digitsToNat (l : List Char) : ℕ :=
  l.foldl (fun a c => 10 * a + digitVal c) 0

/-- Whitespace characters skipped by JS parseInt. -/
def isSpaceJS (c : Char) : Bool :=
  c = ' ' || c = '\t' || c = '\n' || c = '\r'

/-- Maximal leading digit run of a string; none when it is empty
(JS parseInt yields NaN then). -/
def parseDigitsJS (l : List Char) : Option ℕ :=
  match l.takeWhile isDigitCh with
  | [] => none
  | ds => some (digitsToNat ds)

/-- JS parseInt(s, 10): skip whitespace, optional sign, maximal digit run;
none models NaN. -/
def parseIntJS (l : List Char) : Option ℤ :=
  match l.dropWhile isSpaceJS with
  | [] => none
  | c :: rest =>
    if c = '-' then (parseDigitsJS rest).map (fun n => -(n : ℤ))
    else if c = '+' then (parseDigitsJS rest).map (fun n => (n : ℤ))
    else (parseDigitsJS (c :: rest)).map (fun n => (n : ℤ))

/-- JS String.prototype.split with a one-character separator. -/
def splitChar : List Char → Char → List (List Char)
  | [], _ => [[]]
  | c :: rest, sep =>
    if c = sep then
      [] :: splitChar rest sep
    else
      match splitChar rest sep with
      | [] => [[c]]
      | h :: t => (c :: h) :: t

/-- JS String.prototype.padStart(n, c). -/
def padStartList (n : ℕ) (c : Char) (l : List Char) : List Char :=
  List.replicate (n - l.length) c ++ l

/-- Fuel-driven core of decimal rendering (structural recursion so that the
kernel can evaluate it). -/
def natDigitsCore : ℕ → ℕ → List Char
  | 0, _ => []
  | fuel + 1, n =>
    if n < 10 then [digitChar n]
    else natDigitsCore fuel (n / 10) ++ [digitChar (n % 10)]

/-- Decimal rendering of a natural number, as JS Number.prototype.toString
produces for integral values (no leading zeros, single 0 for zero). -/
def natDigits (n : ℕ) : List Char := natDigitsCore (n + 1) n

/-- Decimal rendering of an integer (sign then digits), as JS toString. -/
def intDigits (i : ℤ) : List Char :=
  if i < 0 then '-' :: natDigits (-i).toNat else natDigits i.toNat

/-- Fixed three-decimal rendering of a nonnegative integer count of
thousandths: digits of the integral part, a dot, exactly three fraction
digits. -/
def fixedDigits3 (k : ℕ) : List Char :=
  natDigits (k / 1000) ++ '.' :: padStartList 3 '0' (natDigits (k % 1000))

/-- JS Number.prototype.toFixed(3): round to the nearest thousandth, ties
toward positive infinity, and print with exactly three decimals. -/
def toFixed3 (q : ℚ) : List Char :=
  let m := jsRound (q * 1000)
  if m < 0 then '-' :: fixedDigits3 (-m).toNat else fixedDigits3 m.toNat

/-! ## src/src/utils.ts -/

/-- convertStringToMilliseconds from src/src/utils.ts.  Splits HH:MM:SS.mmm
on colons, the last component on a dot, parses each piece with
parseInt(_, 10), returns 0 for an empty input, a missing or empty third
component, or any NaN component, and otherwise
(h*60*60 + m*60 + s)*1000 + ms. -/
def convertStringToMilliseconds (timeStr : String) : ℤ :=
  if timeStr.data = [] then 0
  else
    let parts := splitChar timeStr.data ':'
    match parts.get? 2 with
    | none => 0
    | some secondsAndMilliseconds =>
      if secondsAndMilliseconds = [] then 0
      else
        let sub := splitChar secondsAndMilliseconds '.'
        let secondsPart := (sub.get? 0).getD []
        let msPart : List Char :=
          match sub.get? 1 with
          | none => ['0']
          | some l => if l = [] then ['0'] else l
        match parseIntJS ((parts.get? 0).getD []), parseIntJS ((parts.get? 1).getD []),
            parseIntJS secondsPart, parseIntJS msPart with
        | some h, some m, some s, some ms => (h * 60 * 60 + m * 60 + s) * 1000 + ms
        | _, _, _, _ => 0

/-- secondsToTimeFormat from src/src/utils.ts: hours and minutes by
Math.floor, two-digit padding, seconds via toFixed(3) padded to width 6. -/
def secondsToTimeFormat (durationSeconds : ℚ) : String :=
  let hours := jsFloor (durationSeconds / 3600)
  let minutes := jsFloor ((durationSeconds - hours * 3600) / 60)
  let seconds := durationSeconds - hours * 3600 - minutes * 60
  String.mk
    (padStartList 2 '0' (intDigits hours) ++
      ':' :: padStartList 2 '0' (intDigits minutes) ++
      ':' :: padStartList 6 '0' (toFixed3 seconds))

/-! ## src/src/trimAndTranscode.ts: stderr classification -/

/-- Boolean list-prefix test used by the scanners below. -/
def isPrefixOfB : List Char → List Char → Bool
  | [], _ => true
  | _ :: _, [] => false
  | a :: as, b :: bs => a = b && isPrefixOfB as bs

/-- Boolean substring test (the semantics of String.prototype.includes). -/
def hasInfixB (pat : List Char) : List Char → Bool
  | [] => isPrefixOfB pat []
  | c :: rest => isPrefixOfB pat (c :: rest) || hasInfixB pat rest

/-- throwErrorOnSpecificStderr from src/src/utils.ts: the stderr line is
fatal exactly when it contains the configured substring
Output file is empty. -/
def throwsOnSpecificStderr (stderrLine : String) : Bool :=
  hasInfixB ['O','u','t','p','u','t',' ','f','i','l','e',' ','i','s',' ','e','m','p','t','y']
    stderrLine.data

/-- Shape test for the regex body dd:dd:dd.dd at the head of the list. -/
def timeShapeAt (l : List Char) : Bool :=
  match l with
  | a :: b :: c :: d :: e :: f :: g :: h :: i :: j :: k :: _ =>
    isDigitCh a && isDigitCh b && c = ':' && isDigitCh d && isDigitCh e && f = ':' &&
      isDigitCh g && isDigitCh h && i = '.' && isDigitCh j && isDigitCh k
  | _ => false

/-- First match of the regex time=(dd:dd:dd.dd): scan left to right for the
literal time= followed by the timestamp shape, returning the captured
11-character timestamp. -/
def scanTime : List Char → Option (List Char)
  | [] => none
  | c :: rest =>
    if isPrefixOfB ['t','i','m','e','='] (c :: rest) && timeShapeAt ((c :: rest).drop 5) then
      some (((c :: rest).drop 5).take 11)
    else scanTime rest

/-- First match of the regex Duration:\s*(dd:dd:dd.dd): the literal
Duration: followed by whitespace, then the captured timestamp.  Because the
timestamp starts with a digit, the greedy whitespace run is equivalent to
skipping the maximal whitespace run. -/
def scanDuration : List Char → Option (List Char)
  | [] => none
  | c :: rest =>
    if isPrefixOfB ['D','u','r','a','t','i','o','n',':'] (c :: rest) then
      let after := ((c :: rest).drop 9).dropWhile isSpaceJS
      if timeShapeAt after then some (after.take 11) else scanDuration rest
    else scanDuration rest

/-- Parsed form of one ffmpeg stderr chunk (parseFFmpegProgress in
src/src/trimAndTranscode.ts). -/
structure FfmpegProgress where
  time : Option String
  duration : Option String
deriving DecidableEq

/-- parseFFmpegProgress from src/src/trimAndTranscode.ts. -/
def parseFFmpegProgress (stderrLine : String) : FfmpegProgress :=
  { time := (scanTime stderrLine.data).map String.mk
    duration := (scanDuration stderrLine.data).map String.mk }

/-- JS truthiness of a possibly-undefined string: undefined and the empty
string are falsy. -/
def jsTruthyStr (s : Option String) : Bool :=
  match s with
  | none => false
  | some v => v.data ≠ []

/-- JS truthiness of a possibly-undefined integer-valued number. -/
def jsTruthyInt (t : Option ℤ) : Bool :=
  match t with
  | none => false
  | some v => v ≠ 0

/-! ## src/src/trimAndTranscode.ts: progress ranges -/

/-- calculateProgressRanges from src/src/trimAndTranscode.ts.  Returns
(downloadEndPercent, transcodeStartPercent).  With no trimming parameters
the download band is the fixed [0,2]; otherwise the download end is
min(98, round(downloadTime / totalProcessingTime / 5 * 98)) with the
DOWNLOAD_SPEED_MULTIPLIER constant 5, and the transcode start equals the
download end. -/
def calculateProgressRanges (startTime duration totalDuration : Option ℚ) : ℤ × ℤ :=
  if !jsTruthy startTime && !jsTruthy duration then (2, 0)
  else
    let downloadTime := jsOr startTime 0
    let actualTranscodeTime :=
      if jsTruthy duration then duration.getD 0
      else if jsTruthy totalDuration then totalDuration.getD 0 - downloadTime
      else 1000
    let totalProcessingTime := downloadTime + actualTranscodeTime
    let downloadEndPercent : ℤ :=
      if totalProcessingTime > 0 then
        jsMinI 98 (jsRound (downloadTime / totalProcessingTime / 5 * 98))
      else 0
    (downloadEndPercent, downloadEndPercent)

/-! ## src/src/trimAndTranscode.ts: the progress/cancellation machine

State shared by updateDownloadProgress and the ffmpeg stderr data handler,
exactly the mutable locals of trimAndTranscode. -/

structure TTState where
  progressRanges : ℤ × ℤ
  maxDownloadProgress : ℤ
  lastLoggedProgress : ℤ
  transcodingStarted : Bool
  totalTimeMillis : Option ℤ
  loggedDurationWarning : Bool
  previousPercent : ℤ
  actualTranscodeStartPercent : Option ℤ
deriving DecidableEq

/-- The locals of trimAndTranscode at their declaration sites. -/
def initTTState (startTime duration : Option ℚ) : TTState :=
  { progressRanges := calculateProgressRanges startTime duration none
    maxDownloadProgress := -1
    lastLoggedProgress := -1
    transcodingStarted := false
    totalTimeMillis := none
    loggedDurationWarning := false
    previousPercent := -1
    actualTranscodeStartPercent := none }

/-- Why the stderr handler settled the job, when it did. -/
inductive RejectKind where
  | fatalStderr
  | cancelled
deriving DecidableEq

/-- Externally observable effects of one handler invocation. -/
structure TTActions where
  writes : List ℤ
  killFfmpeg : Bool
  killYtdlp : Bool
  rejectWith : Option RejectKind
deriving DecidableEq

/-- No effects. -/
def noActions : TTActions :=
  { writes := [], killFfmpeg := false, killYtdlp := false, rejectWith := none }

/-- updateDownloadProgress from src/src/trimAndTranscode.ts: ignore events
once transcoding started; otherwise scale the raw 0..100 progress into
0..downloadEndPercent and write only strict increases over
maxDownloadProgress. -/
def updateDownloadProgress (st : TTState) (progress : ℚ) : TTState × List ℤ :=
  if st.transcodingStarted then (st, [])
  else
    let scaledProgress := jsRound (progress * ((st.progressRanges.1 : ℚ) / 100))
    let progressDecile := jsFloor (progress / 10)
    let st1 :=
      if progressDecile > st.lastLoggedProgress then
        { st with lastLoggedProgress := progressDecile }
      else st
    if scaledProgress > st1.maxDownloadProgress then
      ({ st1 with maxDownloadProgress := scaledProgress }, [scaledProgress])
    else (st1, [])

/-- The duration-marker section of the stderr handler: on the first
Duration: marker record the total and recalculate the progress ranges; a
position marker before any duration and with no requested duration sets
the logged-warning flag. -/
def ttApplyDurationMarker (startTime duration : Option ℚ) (st : TTState)
    (progress : FfmpegProgress) : TTState :=
  if jsTruthyStr progress.duration && !jsTruthyInt st.totalTimeMillis then
    let tot := convertStringToMilliseconds (progress.duration.getD "")
    { st with
      totalTimeMillis := some tot
      progressRanges := calculateProgressRanges startTime duration (some ((tot : ℤ) / 1000)) }
  else if jsTruthyStr progress.time && !jsTruthyInt st.totalTimeMillis &&
      !jsTruthy duration && !st.loggedDurationWarning then
    { st with loggedDurationWarning := true }
  else st

/-- The transcoding-started section: on the first position marker fix the
starting percent (the maximum emitted download progress when one exists,
the configured transcode start otherwise), write it, and seed
previousPercent with it. -/
def ttStartTranscode (st : TTState) : TTState × List ℤ :=
  if !st.transcodingStarted then
    let initialTranscodePercent :=
      if st.maxDownloadProgress ≥ 0 then st.maxDownloadProgress
      else st.progressRanges.2
    ({ st with
        transcodingStarted := true
        actualTranscodeStartPercent := some initialTranscodePercent
        previousPercent := initialTranscodePercent },
      [initialTranscodePercent])
  else (st, [])

/-- The percent-calculation section of the stderr handler: derive the
calculated duration, interpolate into the [start, 98] band, round, and
write only strict increases over previousPercent. -/
def ttEmitPercent (startTime duration : Option ℚ) (st : TTState)
    (timeStr : String) : TTState × List ℤ :=
  let timeMillis := convertStringToMilliseconds timeStr
  let calculatedDuration : Option ℚ :=
    if jsTruthyInt st.totalTimeMillis then
      some
        (if jsTruthy duration then duration.getD 0 * 1000
          else if jsTruthy startTime then
            ((st.totalTimeMillis.getD 0 : ℤ) : ℚ) - startTime.getD 0 * 1000
          else ((st.totalTimeMillis.getD 0 : ℤ) : ℚ))
    else if jsTruthy duration then some (duration.getD 0 * 1000)
    else none
  if jsTruthy calculatedDuration && 0 < calculatedDuration.getD 0 then
    let cd := calculatedDuration.getD 0
    let startPercent : ℤ := st.actualTranscodeStartPercent.getD st.progressRanges.2
    let rawPercent : ℚ := min 100 (max 0 ((timeMillis : ℚ) / cd * 100))
    let transcodeRange : ℚ := 98 - (startPercent : ℚ)
    let calculatedPercent : ℚ := (startPercent : ℚ) + rawPercent / 100 * transcodeRange
    let percent : ℤ := jsRound (max (startPercent : ℚ) (min 98 calculatedPercent))
    if percent > st.previousPercent then
      ({ st with previousPercent := percent }, [percent])
    else (st, [])
  else (st, [])

/-- One invocation of the ffmpeg stderr data handler of trimAndTranscode
(src/src/trimAndTranscode.ts): fatal-pattern check, duration-marker
handling, then on a position marker the cancellation check, the
transcoding-start transition and the percent write.  startTime and
duration are the trim parameters of the enclosing call, ytdlpPresent
records whether a streaming yt-dlp process exists, cancel is the
cancellation token state observed during this event. -/
def ttStderrStep (startTime duration : Option ℚ) (ytdlpPresent : Bool) (cancel : Bool)
    (st : TTState) (chunk : String) : TTState × TTActions :=
  if throwsOnSpecificStderr chunk then
    (st, { writes := [], killFfmpeg := true, killYtdlp := false, rejectWith := some .fatalStderr })
  else
    let progress := parseFFmpegProgress chunk
    let st := ttApplyDurationMarker startTime duration st progress
    if jsTruthyStr progress.time then
      if cancel then
        (st, { writes := [], killFfmpeg := true, killYtdlp := ytdlpPresent,
               rejectWith := some .cancelled })
      else
        let startPair := ttStartTranscode st
        let emit := ttEmitPercent startTime duration startPair.1 (progress.time.getD "")
        (emit.1, { noActions with writes := startPair.2 ++ emit.2 })
    else (st, noActions)

/-- An observable input of the trimAndTranscode progress machinery: either a
yt-dlp download progress callback or an ffmpeg stderr data event (carrying
the cancellation-token state at that moment). -/
inductive TTEvent where
  | download (progress : ℚ)
  | stderr (cancel : Bool) (chunk : String)

/-- One machine step for either event kind. -/
def ttStep (startTime duration : Option ℚ) (ytdlpPresent : Bool) (st : TTState) :
    TTEvent → TTState × TTActions
  | .download p =>
    let r := updateDownloadProgress st p
    (r.1, { noActions with writes := r.2 })
  | .stderr cancel chunk => ttStderrStep startTime duration ytdlpPresent cancel st chunk

/-- Run the machine over a list of events, collecting all progress-sink
writes in order. -/
def ttRun (startTime duration : Option ℚ) (ytdlpPresent : Bool) :
    TTState → List TTEvent → TTState × List ℤ
  | st, [] => (st, [])
  | st, e :: es =>
    let r := ttStep startTime duration ytdlpPresent st e
    let rest := ttRun startTime duration ytdlpPresent r.1 es
    (rest.1, r.2.writes ++ rest.2)

/-! ## src/src/trimAndTranscode.ts: duration verification and ffmpeg args -/

/-- The 2-second tolerance constant DURATION_TOLERANCE_SECONDS. -/
def DURATION_TOLERANCE_SECONDS : ℚ := 2

/-- The duration-verification decision after a yt-dlp section download
(src/src/trimAndTranscode.ts): when a duration was requested and the
measured duration of the downloaded file exceeds it by more than the
tolerance, the secondary trim is flagged and carries the requested
duration itself (secondaryTrimNeeded, secondaryTrimDuration). -/
def secondaryTrimDecision (duration : Option ℚ) (actualDuration : ℚ) : Option ℚ :=
  match duration with
  | some d => if actualDuration > d + DURATION_TOLERANCE_SECONDS then some d else none
  | none => none

/-- One ffmpeg command-line token: a literal string pushed by the source, or
a JS number pushed through toString(). -/
inductive FfmpegTok where
  | str (s : String)
  | num (q : ℚ)
deriving DecidableEq

/-- The fixed audio filter chain of trimAndTranscode. -/
def audioFilters : String :=
  "dynaudnorm=g=21:m=40:c=1:b=0,afftdn,pan=stereo|c0<c0+c1|c1<c0+c1,loudnorm=I=-16:LRA=11:TP=-1.5"

/-- The argument vector trimAndTranscode builds for ffmpeg
(src/src/trimAndTranscode.ts, input options, duration handling, codec and
filters, output pipe).  secondaryTrim is the decision produced by
secondaryTrimDecision; its presence models
secondaryTrimNeeded && secondaryTrimDuration !== undefined. -/
def buildFfmpegArgs (inputIsFile usingYtdlpSectionDownload : Bool)
    (inputPath : String) (startTime duration secondaryTrim : Option ℚ) : List FfmpegTok :=
  let inputArgs :=
    if inputIsFile then
      (if !usingYtdlpSectionDownload && jsTruthy startTime then
          [FfmpegTok.str "-ss", FfmpegTok.num (startTime.getD 0)]
        else []) ++ [FfmpegTok.str "-i", FfmpegTok.str inputPath]
    else
      [FfmpegTok.str "-i", FfmpegTok.str "pipe:0"] ++
        (if jsTruthy startTime && !usingYtdlpSectionDownload then
            [FfmpegTok.str "-ss", FfmpegTok.num (startTime.getD 0)]
          else [])
  let durationArgs :=
    if jsTruthy duration && !usingYtdlpSectionDownload then
      [FfmpegTok.str "-t", FfmpegTok.num (duration.getD 0)]
    else if usingYtdlpSectionDownload && secondaryTrim.isSome then
      [FfmpegTok.str "-t", FfmpegTok.num (secondaryTrim.getD 0)]
    else []
  let codecArgs :=
    [FfmpegTok.str "-acodec", FfmpegTok.str "libmp3lame", FfmpegTok.str "-b:a",
      FfmpegTok.str "128k", FfmpegTok.str "-ac", FfmpegTok.str "2", FfmpegTok.str "-ar",
      FfmpegTok.str "44100", FfmpegTok.str "-af", FfmpegTok.str audioFilters,
      FfmpegTok.str "-f", FfmpegTok.str "mp3"]
  inputArgs ++ durationArgs ++ codecArgs ++ [FfmpegTok.str "pipe:1"]

/-- The value following the first -t token, when any. -/
def extractTrimArg : List FfmpegTok → Option FfmpegTok
  | [] => none
  | FfmpegTok.str s :: rest => if s = "-t" then rest.head? else extractTrimArg rest
  | _ :: rest => extractTrimArg rest

/-! ## Acquisition dispatch for remote URLs

The revised trimAndTranscode generation kept in the repository (unnamed
source, imports getYouTubeAudioUrl): with a trim window it first tries the
direct-URL policy, falls back to the precise section download when URL
extraction fails, and propagates a section-download failure; without a trim
window it streams the whole remote source and propagates its failure. -/

/-- Result of getYouTubeAudioUrl (unnamed processYouTubeUrl generation). -/
structure YouTubeAudioUrlResult where
  url : String
  format : String
  duration : Option ℚ

/-- What the acquisition stage hands to ffmpeg. -/
inductive AcquiredInput where
  | directUrl (url : String)
  | sectionFile (path : String)
  | fullStream
deriving DecidableEq

/-- The YouTube acquisition dispatch of the revised trimAndTranscode, as a
function of the outcomes of the three policies. -/
def acquireYouTubeInput (startTime : Option ℚ)
    (urlPolicy : Except String YouTubeAudioUrlResult)
    (sectionPolicy : Except String String)
    (fullStreamPolicy : Except String Unit) : Except String AcquiredInput :=
  if startTime.isSome then
    match urlPolicy with
    | .ok u => .ok (.directUrl u.url)
    | .error _ =>
      match sectionPolicy with
      | .ok f => .ok (.sectionFile f)
      | .error e => .error e
  else
    match fullStreamPolicy with
    | .ok _ => .ok .fullStream
    | .error e => .error e

/-! ## src/src/mergeFiles.ts -/

/-- The mutable local of mergeFiles. -/
structure MergeState where
  previousScaledPercent : ℤ
deriving DecidableEq

/-- One invocation of the mergeFiles stderr data handler: check
cancellation first (killing and rejecting); otherwise on a position marker
compute percent = round(max(0, time/duration*100)) and scale it with
percent * 0.02 + 98, writing only strict increases. -/
def mergeStderrStep (durationSeconds : ℚ) (cancel : Bool) (st : MergeState)
    (chunk : String) : MergeState × List ℤ × Bool :=
  if cancel then (st, [], true)
  else
    let t := (scanTime chunk.data).map String.mk
    if jsTruthyStr t then
      let timeMillis := convertStringToMilliseconds (t.getD "")
      let durationMillis := durationSeconds * 1000
      let percent : ℤ := jsRound (max 0 ((timeMillis : ℚ) / durationMillis * 100))
      let scaledPercent : ℤ := jsRound ((percent : ℚ) * (2 / 100) + 98)
      if scaledPercent > st.previousScaledPercent then
        ({ previousScaledPercent := scaledPercent }, [scaledPercent], false)
      else (st, [], false)
    else (st, [], false)

/-- Fold the merge handler over the stderr events, collecting writes. -/
def mergeRun (durationSeconds : ℚ) : MergeState → List (Bool × String) → MergeState × List ℤ
  | st, [] => (st, [])
  | st, (cancel, chunk) :: es =>
    let r := mergeStderrStep durationSeconds cancel st chunk
    let rest := mergeRun durationSeconds r.1 es
    (rest.1, r.2.1 ++ rest.2)

/-- All values mergeFiles writes to the progress sink: the initial 98, the
scaled per-event values, and the final 100 on successful close and upload. -/
def mergeFilesWrites (durationSeconds : ℚ) (events : List (Bool × String))
    (closedSuccessfully : Bool) : List ℤ :=
  98 :: (mergeRun durationSeconds { previousScaledPercent := -1 } events).2 ++
    (if closedSuccessfully then [100] else [])

/-! ## src/src/processAudio.ts -/

/-- Length of the filePathsArray built by processAudio: optional intro, the
transcoded content, optional outro. -/
def filePathsArrayLength (intro outro : Bool) : ℕ :=
  (if intro then 1 else 0) + 1 + (if outro then 1 else 0)

/-- All values a successful processAudio job writes to its progress-sink
ref, in order: the trimAndTranscode machine writes, the mergeFiles writes
when the merge stage is invoked (filePathsArray.length > 1), and the final
set(100). -/
def successfulJobWrites (startTime duration : Option ℚ) (ytdlpPresent : Bool)
    (ttEvents : List TTEvent) (intro outro : Bool) (mergeDurationSeconds : ℚ)
    (mergeEvents : List (Bool × String)) : List ℤ :=
  (ttRun startTime duration ytdlpPresent (initTTState startTime duration) ttEvents).2 ++
    (if 1 < filePathsArrayLength intro outro then
        mergeFilesWrites mergeDurationSeconds mergeEvents true
      else []) ++ [100]

/-- The finally block of processAudio: one unlink per registered temp file,
leaving nothing unreleased.  First component: paths passed to unlink;
second component: paths never released. -/
def finalCleanup (tempFiles : List String) : List String × List String :=
  (tempFiles.map (fun p => p), [])

/-- Whether every parsing step of convertStringToMilliseconds succeeds on
this input: nonempty, a third colon component exists and is nonempty, and
none of the four parseInt calls yields NaN. -/
def timeComponentsParsed (timeStr : String) : Bool :=
  !decide (timeStr.data = []) &&
    (match (splitChar timeStr.data ':').get? 2 with
      | none => false
      | some secondsAndMilliseconds =>
        !decide (secondsAndMilliseconds = []) &&
          ((parseIntJS (((splitChar timeStr.data ':').get? 0).getD [])).isSome &&
            (parseIntJS (((splitChar timeStr.data ':').get? 1).getD [])).isSome &&
            (parseIntJS (((splitChar secondsAndMilliseconds '.').get? 0).getD [])).isSome &&
            (parseIntJS
              (match (splitChar secondsAndMilliseconds '.').get? 1 with
                | none => ['0']
                | some l => if l = [] then ['0'] else l)).isSome))

/-! ## Lemmas about digit rendering and parsing -/

theorem natDigitsCore_eq_of_lt :
    ∀ f1 f2 n, n < f1 → n < f2 → natDigitsCore f1 n = natDigitsCore f2 n := by
  intro f1
  induction f1 with
  | zero => intro f2 n h1; omega
  | succ g ih =>
    intro f2 n h1 h2
    cases f2 with
    | zero => omega
    | succ g2 =>
      simp only [natDigitsCore]
      by_cases h : n < 10
      · simp [h]
      · simp only [h, if_false]
        have hd : n / 10 < n := Nat.div_lt_self (by omega) (by omega)
        rw [ih g2 (n / 10) (by omega) (by omega)]

theorem natDigits_unfold (n : ℕ) :
    natDigits n = if n < 10 then [digitChar n] else natDigits (n / 10) ++ [digitChar (n % 10)] := by
  rw [natDigits, natDigitsCore]
  by_cases h : n < 10
  · simp [h]
  · simp only [h, if_false]
    have hd : n / 10 < n := Nat.div_lt_self (by omega) (by omega)
    rw [natDigitsCore_eq_of_lt n (n / 10 + 1) (n / 10) (by omega) (by omega), natDigits]

theorem digitChar_isDigit : ∀ d, d < 10 → isDigitCh (digitChar d) = true := by decide

theorem digitVal_digitChar : ∀ d, d < 10 → digitVal (digitChar d) = d := by decide

/-- Every character of the decimal rendering is a digit. -/
theorem natDigits_allDigits (n : ℕ) : ∀ c ∈ natDigits n, isDigitCh c = true := by
  induction n using Nat.strong_induction_on with
  | _ n ih =>
    rw [natDigits_unfold]
    by_cases h : n < 10
    · simp only [h, if_true, List.mem_singleton]
      rintro c rfl
      exact digitChar_isDigit n h
    · simp only [h, if_false, List.mem_append, List.mem_singleton]
      rintro c (hc | rfl)
      · exact ih (n / 10) (Nat.div_lt_self (by omega) (by omega)) c hc
      · exact digitChar_isDigit (n % 10) (Nat.mod_lt n (by omega))

theorem natDigits_ne_nil (n : ℕ) : natDigits n ≠ [] := by
  rw [natDigits_unfold]
  by_cases h : n < 10 <;> simp [h]

theorem digitsToNat_append_singleton (l : List Char) (c : Char) :
    digitsToNat (l ++ [c]) = 10 * digitsToNat l + digitVal c := by
  simp [digitsToNat, List.foldl_append]

theorem digitsToNat_natDigits (n : ℕ) : digitsToNat (natDigits n) = n := by
  induction n using Nat.strong_induction_on with
  | _ n ih =>
    rw [natDigits_unfold]
    by_cases h : n < 10
    · simp only [h, if_true]
      simp [digitsToNat, digitVal_digitChar n h]
    · simp only [h, if_false, digitsToNat_append_singleton]
      rw [ih (n / 10) (Nat.div_lt_self (by omega) (by omega)),
        digitVal_digitChar (n % 10) (Nat.mod_lt n (by omega))]
      omega

theorem digitsToNat_replicate_zero (m : ℕ) (l : List Char) :
    digitsToNat (List.replicate m '0' ++ l) = digitsToNat l := by
  induction m with
  | zero => simp
  | succ k ih =>
    have : digitVal '0' = 0 := by decide
    simp only [List.replicate_succ, List.cons_append, digitsToNat, List.foldl_cons]
    rw [show 10 * 0 + digitVal '0' = 0 by simp [this]]
    exact ih

theorem digitsToNat_padStart (m : ℕ) (l : List Char) :
    digitsToNat (padStartList m '0' l) = digitsToNat l := by
  rw [padStartList, digitsToNat_replicate_zero]

theorem padStart_allDigits (m : ℕ) (l : List Char) (h : ∀ c ∈ l, isDigitCh c = true) :
    ∀ c ∈ padStartList m '0' l, isDigitCh c = true := by
  intro c hc
  rw [padStartList, List.mem_append] at hc
  rcases hc with hc | hc
  · have := List.eq_of_mem_replicate hc
    subst this
    decide
  · exact h c hc

theorem padStart_ne_nil (m : ℕ) (c : Char) (l : List Char) (h : l ≠ []) :
    padStartList m c l ≠ [] := by
  rw [padStartList]
  intro he
  rcases List.append_eq_nil.mp he with ⟨_, h2⟩
  exact h h2

theorem isDigitCh_not_space (c : Char) (h : isDigitCh c = true) : isSpaceJS c = false := by
  have hv : 48 ≤ c.toNat ∧ c.toNat ≤ 57 := by
    simpa [isDigitCh] using h
  rw [isSpaceJS]
  have h1 : c ≠ ' ' := by rintro rfl; simp at hv
  have h2 : c ≠ '\t' := by rintro rfl; simp at hv
  have h3 : c ≠ '\n' := by rintro rfl; simp at hv
  have h4 : c ≠ '\r' := by rintro rfl; simp at hv
  simp [h1, h2, h3, h4]

theorem isDigitCh_ne (c : Char) (h : isDigitCh c = true) :
    c ≠ '-' ∧ c ≠ '+' ∧ c ≠ ':' ∧ c ≠ '.' := by
  have hv : 48 ≤ c.toNat ∧ c.toNat ≤ 57 := by
    simpa [isDigitCh] using h
  refine ⟨?_, ?_, ?_, ?_⟩ <;> rintro rfl <;> simp at hv

theorem takeWhile_eq_self_of_all (p : Char → Bool) :
    ∀ l : List Char, (∀ c ∈ l, p c = true) → l.takeWhile p = l := by
  intro l
  induction l with
  | nil => intro _; rfl
  | cons c rest ih =>
    intro h
    rw [List.takeWhile_cons, h c (by simp)]
    simp [ih fun d hd => h d (List.mem_cons_of_mem _ hd)]

/-- parseInt on a nonempty all-digit string succeeds with its decimal
value. -/
theorem parseIntJS_digits (l : List Char) (h1 : ∀ c ∈ l, isDigitCh c = true) (h2 : l ≠ []) :
    parseIntJS l = some (digitsToNat l) := by
  cases l with
  | nil => exact absurd rfl h2
  | cons c rest =>
    have hc : isDigitCh c = true := h1 c (by simp)
    have hdrop : (c :: rest).dropWhile isSpaceJS = c :: rest := by
      rw [List.dropWhile_cons, isDigitCh_not_space c hc]
      simp
    rw [parseIntJS, hdrop]
    have hne := isDigitCh_ne c hc
    simp only [hne.1, if_false, hne.2.1, if_false]
    rw [parseDigitsJS, takeWhile_eq_self_of_all isDigitCh (c :: rest) h1]
    rfl

theorem splitChar_of_not_mem (sep : Char) :
    ∀ l : List Char, sep ∉ l → splitChar l sep = [l] := by
  intro l
  induction l with
  | nil => intro _; rfl
  | cons c rest ih =>
    intro h
    have hc : ¬c = sep := fun he => h (he ▸ List.mem_cons_self c rest)
    rw [splitChar, if_neg hc, ih fun hm => h (List.mem_cons_of_mem _ hm)]

theorem splitChar_append (sep : Char) :
    ∀ l1 l2 : List Char, sep ∉ l1 →
      splitChar (l1 ++ sep :: l2) sep = l1 :: splitChar l2 sep := by
  intro l1
  induction l1 with
  | nil =>
    intro l2 _
    simp [splitChar]
  | cons c rest ih =>
    intro l2 h
    have hc : ¬c = sep := fun he => h (he ▸ List.mem_cons_self c rest)
    rw [List.cons_append, splitChar, if_neg hc, ih l2 fun hm => h (List.mem_cons_of_mem _ hm)]

theorem not_colon_of_allDigits (l : List Char) (h : ∀ c ∈ l, isDigitCh c = true) :
    ':' ∉ l := fun hm => by
  have := h ':' hm
  exact absurd this (by decide)

theorem not_dot_of_allDigits (l : List Char) (h : ∀ c ∈ l, isDigitCh c = true) :
    '.' ∉ l := fun hm => by
  have := h '.' hm
  exact absurd this (by decide)

/-- convertStringToMilliseconds on a well-shaped rendered timestamp whose
four components are nonempty digit strings. -/
theorem convert_four_components (A B S1 F3 : List Char)
    (hA : ∀ c ∈ A, isDigitCh c = true) (hB : ∀ c ∈ B, isDigitCh c = true)
    (hS1 : ∀ c ∈ S1, isDigitCh c = true) (hF3 : ∀ c ∈ F3, isDigitCh c = true)
    (hAne : A ≠ []) (hBne : B ≠ []) (hS1ne : S1 ≠ []) (hF3ne : F3 ≠ []) :
    convertStringToMilliseconds (String.mk (A ++ ':' :: B ++ ':' :: S1 ++ '.' :: F3)) =
      ((digitsToNat A : ℤ) * 60 * 60 + (digitsToNat B : ℤ) * 60 + (digitsToNat S1 : ℤ)) * 1000 +
        (digitsToNat F3 : ℤ) := by
  have hAc : ':' ∉ A := not_colon_of_allDigits A hA
  have hBc : ':' ∉ B := not_colon_of_allDigits B hB
  have hS1c : ':' ∉ S1 := not_colon_of_allDigits S1 hS1
  have hF3c : ':' ∉ F3 := not_colon_of_allDigits F3 hF3
  have hS1d : '.' ∉ S1 := not_dot_of_allDigits S1 hS1
  have hF3d : '.' ∉ F3 := not_dot_of_allDigits F3 hF3
  have hCc : ':' ∉ S1 ++ '.' :: F3 := by
    intro hm
    rcases List.mem_append.mp hm with hm | hm
    · exact hS1c hm
    · rcases List.mem_cons.mp hm with hm | hm
      · exact absurd hm.symm (by decide)
      · exact hF3c hm
  have hsplit2 : splitChar (S1 ++ '.' :: F3) '.' = [S1, F3] := by
    rw [splitChar_append '.' S1 F3 hS1d, splitChar_of_not_mem '.' F3 hF3d]
  have hne : (A ++ ':' :: B ++ ':' :: S1 ++ '.' :: F3) ≠ [] := by
    cases A <;> simp
  have hCne : S1 ++ '.' :: F3 ≠ [] := by
    cases S1 <;> simp
  rw [convertStringToMilliseconds]
  rw [if_neg hne]
  have hdata : splitChar (A ++ ':' :: B ++ ':' :: S1 ++ '.' :: F3) ':' =
      A :: B :: [S1 ++ '.' :: F3] := by
    have := splitChar_append ':' A (B ++ ':' :: (S1 ++ '.' :: F3)) hAc
    rw [splitChar_append ':' B (S1 ++ '.' :: F3) hBc,
      splitChar_of_not_mem ':' _ hCc] at this
    simpa using this
  rw [hdata]
  simp only [List.get?, Option.getD_some]
  rw [if_neg hCne, hsplit2]
  simp only [List.get?, Option.getD_some]
  rw [if_neg hF3ne]
  rw [parseIntJS_digits A hA hAne, parseIntJS_digits B hB hBne,
    parseIntJS_digits S1 hS1 hS1ne, parseIntJS_digits F3 hF3 hF3ne]
  simp

theorem intDigits_natCast (n : ℕ) : intDigits (n : ℤ) = natDigits n := by
  rw [intDigits, if_neg (by omega), Int.toNat_natCast]

theorem jsFloor_nat_div (a b : ℕ) : jsFloor ((a : ℚ) / ((b : ℕ) : ℚ)) = ((a / b : ℕ) : ℤ) := by
  rw [jsFloor, Rat.floor_natCast_div_natCast]
  omega

/-- The exact rendering secondsToTimeFormat produces on a whole number of
milliseconds. -/
theorem secondsToTimeFormat_ms (n : ℕ) :
    secondsToTimeFormat ((n : ℚ) / 1000) =
      String.mk (padStartList 2 '0' (natDigits (n / 3600000)) ++ ':' ::
        padStartList 2 '0' (natDigits (n % 3600000 / 60000)) ++ ':' ::
        (List.replicate (6 - (fixedDigits3 (n % 60000)).length) '0' ++
          natDigits (n % 60000 / 1000)) ++ '.' ::
        padStartList 3 '0' (natDigits (n % 60000 % 1000))) := by
  have e1 : (n : ℚ) / 1000 / 3600 = (n : ℚ) / ((3600000 : ℕ) : ℚ) := by
    push_cast
    ring
  have h1 : jsFloor ((n : ℚ) / 1000 / 3600) = ((n / 3600000 : ℕ) : ℤ) := by
    rw [e1, jsFloor_nat_div]
  have hdm1 : 3600000 * (n / 3600000) + n % 3600000 = n := Nat.div_add_mod n 3600000
  have hr : ((n % 3600000 : ℕ) : ℚ) = (n : ℚ) - ((n / 3600000 : ℕ) : ℚ) * 3600000 := by
    have : ((3600000 * (n / 3600000) + n % 3600000 : ℕ) : ℚ) = (n : ℚ) := by
      exact_mod_cast congrArg (fun x : ℕ => (x : ℚ)) hdm1
    push_cast at this
    linarith
  have e2 : ((n : ℚ) / 1000 - (((n / 3600000 : ℕ) : ℤ) : ℚ) * 3600) / 60 =
      ((n % 3600000 : ℕ) : ℚ) / ((60000 : ℕ) : ℚ) := by
    rw [Int.cast_natCast, hr, show ((60000 : ℕ) : ℚ) = 60000 from by norm_num]
    ring
  have h2 : jsFloor (((n : ℚ) / 1000 - (((n / 3600000 : ℕ) : ℤ) : ℚ) * 3600) / 60) =
      ((n % 3600000 / 60000 : ℕ) : ℤ) := by
    rw [e2, jsFloor_nat_div]
  have e3 : (n : ℚ) / 1000 - (((n / 3600000 : ℕ) : ℤ) : ℚ) * 3600 -
      (((n % 3600000 / 60000 : ℕ) : ℤ) : ℚ) * 60 = ((n % 60000 : ℕ) : ℚ) / 1000 := by
    have hkq : ((n % 3600000 : ℕ) : ℚ) =
        ((n % 3600000 / 60000 : ℕ) : ℚ) * 60000 + ((n % 60000 : ℕ) : ℚ) := by
      exact_mod_cast congrArg (fun x : ℕ => (x : ℚ)) (by omega : n % 3600000 =
        n % 3600000 / 60000 * 60000 + n % 60000)
    rw [Int.cast_natCast, Int.cast_natCast]
    linarith
  have e4 : toFixed3 (((n % 60000 : ℕ) : ℚ) / 1000) = fixedDigits3 (n % 60000) := by
    rw [toFixed3]
    have hq : ((n % 60000 : ℕ) : ℚ) / 1000 * 1000 = ((n % 60000 : ℕ) : ℚ) := by ring
    rw [jsRound, hq, round_natCast, if_neg (by omega), Int.toNat_natCast]
  have e5 : padStartList 6 '0' (fixedDigits3 (n % 60000)) =
      (List.replicate (6 - (fixedDigits3 (n % 60000)).length) '0' ++
        natDigits (n % 60000 / 1000)) ++ '.' ::
          padStartList 3 '0' (natDigits (n % 60000 % 1000)) := by
    rw [show padStartList 6 '0' (fixedDigits3 (n % 60000)) =
        List.replicate (6 - (fixedDigits3 (n % 60000)).length) '0' ++
          (natDigits (n % 60000 / 1000) ++ '.' ::
            padStartList 3 '0' (natDigits (n % 60000 % 1000))) from rfl,
      ← List.append_assoc]
  rw [secondsToTimeFormat]
  rw [h1, intDigits_natCast, h2, intDigits_natCast, e3, e4, e5]
  simp [List.append_assoc, List.cons_append]

theorem replicate_zero_append_digits (j : ℕ) (l : List Char)
    (h : ∀ c ∈ l, isDigitCh c = true) :
    ∀ c ∈ List.replicate j '0' ++ l, isDigitCh c = true := by
  intro c hc
  rcases List.mem_append.mp hc with hc | hc
  · rw [List.eq_of_mem_replicate hc]
    decide
  · exact h c hc

/-- C10: the round trip through secondsToTimeFormat and
convertStringToMilliseconds is the identity on whole milliseconds below
100 hours. -/
theorem c10_roundtrip (n : ℕ) (hn : n < 360000000) :
    convertStringToMilliseconds (secondsToTimeFormat ((n : ℚ) / 1000)) = (n : ℤ) := by
  rw [secondsToTimeFormat_ms]
  rw [convert_four_components
    (padStartList 2 '0' (natDigits (n / 3600000)))
    (padStartList 2 '0' (natDigits (n % 3600000 / 60000)))
    (List.replicate (6 - (fixedDigits3 (n % 60000)).length) '0' ++
      natDigits (n % 60000 / 1000))
    (padStartList 3 '0' (natDigits (n % 60000 % 1000)))
    (padStart_allDigits _ _ (natDigits_allDigits _))
    (padStart_allDigits _ _ (natDigits_allDigits _))
    (replicate_zero_append_digits _ _ (natDigits_allDigits _))
    (padStart_allDigits _ _ (natDigits_allDigits _))
    (padStart_ne_nil _ _ _ (natDigits_ne_nil _))
    (padStart_ne_nil _ _ _ (natDigits_ne_nil _))
    (by
      intro he
      rcases List.append_eq_nil.mp he with ⟨_, h2⟩
      exact natDigits_ne_nil _ h2)
    (padStart_ne_nil _ _ _ (natDigits_ne_nil _))]
  rw [digitsToNat_padStart, digitsToNat_padStart, digitsToNat_padStart,
    digitsToNat_replicate_zero, digitsToNat_natDigits, digitsToNat_natDigits,
    digitsToNat_natDigits, digitsToNat_natDigits]
  clear hn
  omega

/-- Witness for C10: the round trip at 3723045 ms. -/
theorem c10_roundtrip_witness :
    3723045 < 360000000 ∧
      convertStringToMilliseconds (secondsToTimeFormat (((3723045 : ℕ) : ℚ) / 1000)) =
        ((3723045 : ℕ) : ℤ) :=
  ⟨by decide, c10_roundtrip 3723045 (by decide)⟩

/-- C2 counterexample: on the input 01:02:03.45 the code returns 3723045,
not the 3723450 the claim states (the two fraction digits are added as
milliseconds, not multiplied by 10). -/
theorem c2_counterexample :
    convertStringToMilliseconds "01:02:03.45" = 3723045 ∧ (3723045 : ℤ) ≠ 3723450 := by
  constructor
  · decide
  · decide

/-- C2 (amended): convertStringToMilliseconds parses HH:MM:SS.ff to
((H*3600)+(M*60)+S)*1000 + ff, reading the fraction digits as a plain
integer number of milliseconds; in particular 01:02:03.45 gives 3723045. -/
theorem c2_parse_formula :
    (∀ H M S F : ℕ,
      convertStringToMilliseconds (String.mk (padStartList 2 '0' (natDigits H) ++ ':' ::
          padStartList 2 '0' (natDigits M) ++ ':' ::
          padStartList 2 '0' (natDigits S) ++ '.' :: padStartList 2 '0' (natDigits F))) =
        ((H : ℤ) * 3600 + (M : ℤ) * 60 + (S : ℤ)) * 1000 + (F : ℤ)) ∧
    convertStringToMilliseconds "01:02:03.45" = 3723045 := by
  constructor
  · intro H M S F
    rw [convert_four_components
      (padStartList 2 '0' (natDigits H)) (padStartList 2 '0' (natDigits M))
      (padStartList 2 '0' (natDigits S)) (padStartList 2 '0' (natDigits F))
      (padStart_allDigits _ _ (natDigits_allDigits _))
      (padStart_allDigits _ _ (natDigits_allDigits _))
      (padStart_allDigits _ _ (natDigits_allDigits _))
      (padStart_allDigits _ _ (natDigits_allDigits _))
      (padStart_ne_nil _ _ _ (natDigits_ne_nil _))
      (padStart_ne_nil _ _ _ (natDigits_ne_nil _))
      (padStart_ne_nil _ _ _ (natDigits_ne_nil _))
      (padStart_ne_nil _ _ _ (natDigits_ne_nil _))]
    rw [digitsToNat_padStart, digitsToNat_padStart, digitsToNat_padStart,
      digitsToNat_padStart, digitsToNat_natDigits, digitsToNat_natDigits,
      digitsToNat_natDigits, digitsToNat_natDigits]
    ring
  · decide

/-- C9: convertStringToMilliseconds is total and NaN-free: whenever any
component fails to parse the result is 0 (never a NaN-like absent value),
and the malformed inputs named by the specification give 0. -/
theorem c9_total_and_zero_on_malformed :
    (∀ s : String, timeComponentsParsed s = false → convertStringToMilliseconds s = 0) ∧
      convertStringToMilliseconds "" = 0 ∧ convertStringToMilliseconds "bad" = 0 ∧
      convertStringToMilliseconds "aa:bb:cc.dd" = 0 := by
  refine ⟨?_, by decide, by decide, by decide⟩
  intro s hs
  rw [convertStringToMilliseconds]
  rw [timeComponentsParsed] at hs
  by_cases h1 : s.data = []
  · rw [if_pos h1]
  · rw [if_neg h1]
    simp only [h1, decide_eq_false h1, Bool.not_false, Bool.true_and] at hs
    cases hget : (splitChar s.data ':').get? 2 with
    | none => simp only [hget]
    | some sm =>
      simp only [hget] at hs ⊢
      by_cases h2 : sm = []
      · rw [if_pos h2]
      · rw [if_neg h2]
        simp only [h2, decide_eq_false h2, Bool.not_false, Bool.true_and] at hs
        cases hA : parseIntJS (((splitChar s.data ':').get? 0).getD []) with
        | none => simp [hA]
        | some vA =>
          cases hB : parseIntJS (((splitChar s.data ':').get? 1).getD []) with
          | none => simp [hA, hB]
          | some vB =>
            cases hC : parseIntJS (((splitChar sm '.').get? 0).getD []) with
            | none => simp [hA, hB, hC]
            | some vC =>
              cases hD : parseIntJS
                  (match (splitChar sm '.').get? 1 with
                    | none => ['0']
                    | some l => if l = [] then ['0'] else l) with
              | none => simp [hA, hB, hC, hD]
              | some vD =>
                rw [hA, hB, hC, hD] at hs
                simp at hs

/-- Witness for C9: applied to the malformed input bad. -/
theorem c9_witness :
    timeComponentsParsed "bad" = false ∧ convertStringToMilliseconds "bad" = 0 :=
  ⟨by decide, c9_total_and_zero_on_malformed.1 "bad" (by decide)⟩

/-- C7: with startTime unset or 0 and no duration, the acquisition band is
the fixed [0,2] and transcoding starts reporting from 0. -/
theorem c7_no_trim_band (st : Option ℚ) (h : st = none ∨ st = some 0) :
    calculateProgressRanges st none none = (2, 0) := by
  rcases h with rfl | rfl <;> simp [calculateProgressRanges, jsTruthy]

/-- Witness for C7 at startTime = 0. -/
theorem c7_no_trim_band_witness :
    ((some (0 : ℚ) = none ∨ some (0 : ℚ) = some 0) ∧
      calculateProgressRanges (some 0) none none = (2, 0)) :=
  ⟨Or.inr rfl, c7_no_trim_band (some 0) (Or.inr rfl)⟩

/-- C3: after a precise section download the ffmpeg command carries
-t d (d the originally requested duration) exactly when the measured
duration exceeds d by more than the 2-second tolerance; at requested 20s,
a measured 22.5s triggers the trim to exactly 20s and a measured 21.5s
does not. -/
theorem c3_secondary_trim :
    (∀ stv d a : ℚ,
      extractTrimArg (buildFfmpegArgs true true "section" (some stv) (some d)
          (secondaryTrimDecision (some d) a)) =
        (if a > d + DURATION_TOLERANCE_SECONDS then some (FfmpegTok.num d) else none)) ∧
    secondaryTrimDecision (some 20) (45 / 2) = some 20 ∧
    secondaryTrimDecision (some 20) (43 / 2) = none := by
  refine ⟨?_, ?_, ?_⟩
  · intro stv d a
    by_cases h : a > d + DURATION_TOLERANCE_SECONDS
    · simp [buildFfmpegArgs, secondaryTrimDecision, extractTrimArg, audioFilters, h]
    · simp [buildFfmpegArgs, secondaryTrimDecision, extractTrimArg, audioFilters, h]
  · rw [secondaryTrimDecision, if_pos (by norm_num [DURATION_TOLERANCE_SECONDS])]
  · rw [secondaryTrimDecision, if_neg (by norm_num [DURATION_TOLERANCE_SECONDS])]

/-- C5: remote acquisition dispatch of the revised trimAndTranscode: with a
trim window, a direct-URL failure falls back to the section download (the
job continues on its success), a section-download failure is fatal, and
without a trim window a full-stream failure is fatal; a direct-URL success
is used as is. -/
theorem c5_acquisition_fallback :
    (∀ (stv : ℚ) (e f : String) (p3 : Except String Unit),
      acquireYouTubeInput (some stv) (Except.error e) (Except.ok f) p3 =
        Except.ok (AcquiredInput.sectionFile f)) ∧
    (∀ (stv : ℚ) (e e2 : String) (p3 : Except String Unit),
      acquireYouTubeInput (some stv) (Except.error e) (Except.error e2) p3 =
        Except.error e2) ∧
    (∀ (p1 : Except String YouTubeAudioUrlResult) (p2 : Except String String) (e3 : String),
      acquireYouTubeInput none p1 p2 (Except.error e3) = Except.error e3) ∧
    (∀ (stv : ℚ) (u : YouTubeAudioUrlResult) (p2 : Except String String)
        (p3 : Except String Unit),
      acquireYouTubeInput (some stv) (Except.ok u) p2 p3 =
        Except.ok (AcquiredInput.directUrl u.url)) := by
  refine ⟨?_, ?_, ?_, ?_⟩ <;> intros <;> simp [acquireYouTubeInput]

/-- C6 failing input: with a stated total duration of 10 seconds, one merge
position marker at 13 seconds makes the merge stage write 101 to the
progress sink, outside the [98,100] band the claim states. -/
theorem c6_merge_write_escapes_band :
    mergeFilesWrites 10 [(false, "time=00:00:13.00 bitrate=x")] true = [98, 101, 100] ∧
      ¬(∀ w ∈ mergeFilesWrites 10 [(false, "time=00:00:13.00 bitrate=x")] true,
          98 ≤ w ∧ w ≤ 100) := by
  have hconv : convertStringToMilliseconds "00:00:13.00" = 13000 := by decide
  have hscan : (scanTime ("time=00:00:13.00 bitrate=x" : String).data).map String.mk =
      some "00:00:13.00" := by decide
  have h : mergeFilesWrites 10 [(false, "time=00:00:13.00 bitrate=x")] true =
      [98, 101, 100] := by
    norm_num [mergeFilesWrites, mergeRun, mergeStderrStep, hconv, hscan, jsTruthyStr,
      jsRound, round_eq]
    decide
  refine ⟨h, ?_⟩
  rw [h]
  intro hall
  have := (hall 101 (by simp)).2
  omega

/-- C4 counterexample: with cancellation already requested, a diagnostic
event that carries no position marker (here a frame report) leaves the
handler inert: no termination signal is sent and the job is not rejected,
so the very next diagnostic event does not necessarily act on
cancellation. -/
theorem c4_counterexample :
    (ttStderrStep (some 0) (some 10) true true (initTTState (some 0) (some 10))
        "frame=1 fps=0").2 = noActions ∧
      noActions.killFfmpeg = false ∧ noActions.rejectWith = none := by
  have hthrow : throwsOnSpecificStderr "frame=1 fps=0" = false := by decide
  have hparse : parseFFmpegProgress "frame=1 fps=0" =
      { time := none, duration := none } := by decide
  refine ⟨?_, rfl, rfl⟩
  simp [ttStderrStep, hthrow, hparse, jsTruthyStr]

/-- C4 (amended): if cancellation is requested, then on the next diagnostic
event that carries a position marker and does not match the fatal stderr
pattern, the transcoder (and a streaming yt-dlp process, when present)
receives the termination signal, the job rejects with the Cancelled error
and nothing is written; and the guaranteed finalization block of
processAudio releases every registered temp path, leaving none. -/
theorem c4_cancel_on_position_marker :
    (∀ (stt dur : Option ℚ) (yp : Bool) (st : TTState) (chunk : String),
      throwsOnSpecificStderr chunk = false →
      jsTruthyStr (parseFFmpegProgress chunk).time = true →
      (ttStderrStep stt dur yp true st chunk).2 =
        { writes := [], killFfmpeg := true, killYtdlp := yp,
          rejectWith := some RejectKind.cancelled }) ∧
    (∀ tempFiles : List String,
      (finalCleanup tempFiles).2 = [] ∧ (finalCleanup tempFiles).1 = tempFiles) := by
  constructor
  · intro stt dur yp st chunk hfatal htime
    simp [ttStderrStep, hfatal, htime]
  · intro tempFiles
    exact ⟨rfl, List.map_id tempFiles⟩

/-- Witness for C4 at a concrete position-marker chunk and registry. -/
theorem c4_cancel_witness :
    throwsOnSpecificStderr "time=00:00:01.00 bitrate=x" = false ∧
      jsTruthyStr (parseFFmpegProgress "time=00:00:01.00 bitrate=x").time = true ∧
      (ttStderrStep (some 0) (some 10) true true (initTTState (some 0) (some 10))
          "time=00:00:01.00 bitrate=x").2 =
        { writes := [], killFfmpeg := true, killYtdlp := true,
          rejectWith := some RejectKind.cancelled } ∧
      (finalCleanup ["tmp-a", "tmp-b"]).2 = [] :=
  ⟨by decide, by decide,
    c4_cancel_on_position_marker.1 (some 0) (some 10) true (initTTState (some 0) (some 10))
      "time=00:00:01.00 bitrate=x" (by decide) (by decide),
    (c4_cancel_on_position_marker.2 ["tmp-a", "tmp-b"]).1⟩

set_option maxHeartbeats 2000000 in
/-- C1 failing input: a successful job (no trim seek, 10 s duration, one
outro so the merge stage runs with stated total 12 s) whose merge phase
sees one position marker at 16 s.  The progress sink receives
0, 49, 98, 98, 101, 100, 100: the sequence is not non-decreasing (101 is
followed by 100), though the final write is 100. -/
theorem c1_progress_regression :
    successfulJobWrites (some 0) (some 10) false
        [TTEvent.stderr false "Duration: 00:00:10.00, start",
          TTEvent.stderr false "time=00:00:05.00 bitrate=x",
          TTEvent.stderr false "time=00:00:10.00 bitrate=x"]
        false true 12 [(false, "time=00:00:16.00 bitrate=x")] =
      [0, 49, 98, 98, 101, 100, 100] ∧
      (([0, 49, 98, 98, 101, 100, 100] : List ℤ).get? 4 = some 101 ∧
        ([0, 49, 98, 98, 101, 100, 100] : List ℤ).get? 5 = some 100 ∧ (100 : ℤ) < 101) ∧
      ([0, 49, 98, 98, 101, 100, 100] : List ℤ).getLast? = some 100 := by
  have hp1 : parseFFmpegProgress "Duration: 00:00:10.00, start" =
      { time := none, duration := some "00:00:10.00" } := by decide
  have hp2 : parseFFmpegProgress "time=00:00:05.00 bitrate=x" =
      { time := some "00:00:05.00", duration := none } := by decide
  have hp3 : parseFFmpegProgress "time=00:00:10.00 bitrate=x" =
      { time := some "00:00:10.00", duration := none } := by decide
  have ht1 : throwsOnSpecificStderr "Duration: 00:00:10.00, start" = false := by decide
  have ht2 : throwsOnSpecificStderr "time=00:00:05.00 bitrate=x" = false := by decide
  have ht3 : throwsOnSpecificStderr "time=00:00:10.00 bitrate=x" = false := by decide
  have hc1 : convertStringToMilliseconds "00:00:10.00" = 10000 := by decide
  have hc2 : convertStringToMilliseconds "00:00:05.00" = 5000 := by decide
  have hc4 : convertStringToMilliseconds "00:00:16.00" = 16000 := by decide
  have hscan : (scanTime ("time=00:00:16.00 bitrate=x" : String).data).map String.mk =
      some "00:00:16.00" := by decide
  refine ⟨?_, ⟨by decide, by decide, by decide⟩, by decide⟩
  rw [successfulJobWrites]
  have hmerge : mergeFilesWrites 12 [(false, "time=00:00:16.00 bitrate=x")] true =
      [98, 101, 100] := by
    norm_num [mergeFilesWrites, mergeRun, mergeStderrStep, hc4, hscan, jsTruthyStr,
      jsRound, round_eq]
    decide
  have e0 : initTTState (some 0) (some 10) =
      ⟨(0, 0), -1, -1, false, none, false, -1, none⟩ := by
    norm_num [initTTState, calculateProgressRanges, jsTruthy, jsOr, jsMinI, jsRound,
      round_eq]
  have s1 : ttStep (some 0) (some 10) false ⟨(0, 0), -1, -1, false, none, false, -1, none⟩
      (TTEvent.stderr false "Duration: 00:00:10.00, start") =
      (⟨(0, 0), -1, -1, false, some 10000, false, -1, none⟩, noActions) := by
    norm_num [ttStep, ttStderrStep, ttApplyDurationMarker, ttStartTranscode, ttEmitPercent, ht1, hp1, hc1, calculateProgressRanges, jsTruthy,
      jsTruthyStr, jsTruthyInt, jsMinI, jsOr, jsRound, round_eq]
    decide
  have s2 : ttStep (some 0) (some 10) false
      ⟨(0, 0), -1, -1, false, some 10000, false, -1, none⟩
      (TTEvent.stderr false "time=00:00:05.00 bitrate=x") =
      (⟨(0, 0), -1, -1, true, some 10000, false, 49, some 0⟩,
        { noActions with writes := [0, 49] }) := by
    norm_num [ttStep, ttStderrStep, ttApplyDurationMarker, ttStartTranscode, ttEmitPercent, ht2, hp2, hc2, calculateProgressRanges, jsTruthy,
      jsTruthyStr, jsTruthyInt, jsMinI, jsOr, jsRound, round_eq]
    decide
  have s3 : ttStep (some 0) (some 10) false
      ⟨(0, 0), -1, -1, true, some 10000, false, 49, some 0⟩
      (TTEvent.stderr false "time=00:00:10.00 bitrate=x") =
      (⟨(0, 0), -1, -1, true, some 10000, false, 98, some 0⟩,
        { noActions with writes := [98] }) := by
    norm_num [ttStep, ttStderrStep, ttApplyDurationMarker, ttStartTranscode, ttEmitPercent, ht3, hp3, hc1, calculateProgressRanges, jsTruthy,
      jsTruthyStr, jsTruthyInt, jsMinI, jsOr, jsRound, round_eq]
    decide
  have htt : (ttRun (some 0) (some 10) false (initTTState (some 0) (some 10))
      [TTEvent.stderr false "Duration: 00:00:10.00, start",
        TTEvent.stderr false "time=00:00:05.00 bitrate=x",
        TTEvent.stderr false "time=00:00:10.00 bitrate=x"]).2 = [0, 49, 98] := by
    rw [ttRun, e0, s1, ttRun, s2, ttRun, s3, ttRun]
    rfl
  rw [htt, hmerge, if_pos (by decide : 1 < filePathsArrayLength false true)]
  rfl

theorem ttApplyDurationMarker_fields (stt dur : Option ℚ) (st : TTState)
    (progress : FfmpegProgress) :
    (ttApplyDurationMarker stt dur st progress).previousPercent = st.previousPercent ∧
      (ttApplyDurationMarker stt dur st progress).transcodingStarted = st.transcodingStarted ∧
      (ttApplyDurationMarker stt dur st progress).maxDownloadProgress =
        st.maxDownloadProgress := by
  rw [ttApplyDurationMarker]
  split
  · exact ⟨rfl, rfl, rfl⟩
  · split
    · exact ⟨rfl, rfl, rfl⟩
    · exact ⟨rfl, rfl, rfl⟩

theorem ttApplyDurationMarker_time_only (stt dur : Option ℚ) (st : TTState)
    (progress : FfmpegProgress) (hdur : progress.duration = none) :
    (ttApplyDurationMarker stt dur st progress).progressRanges = st.progressRanges ∧
      (ttApplyDurationMarker stt dur st progress).previousPercent = st.previousPercent ∧
      (ttApplyDurationMarker stt dur st progress).transcodingStarted =
        st.transcodingStarted ∧
      (ttApplyDurationMarker stt dur st progress).maxDownloadProgress =
        st.maxDownloadProgress ∧
      (ttApplyDurationMarker stt dur st progress).actualTranscodeStartPercent =
        st.actualTranscodeStartPercent := by
  rw [ttApplyDurationMarker, hdur]
  simp only [jsTruthyStr, ne_eq, Bool.false_and, Bool.false_eq_true, if_false]
  split
  · exact ⟨rfl, rfl, rfl, rfl, rfl⟩
  · exact ⟨rfl, rfl, rfl, rfl, rfl⟩

theorem ttStartTranscode_started (st : TTState) (h : st.transcodingStarted = true) :
    ttStartTranscode st = (st, []) := by
  simp [ttStartTranscode, h]

theorem ttStartTranscode_not_started (st : TTState) (h : st.transcodingStarted = false) :
    ttStartTranscode st =
      ({ st with
          transcodingStarted := true
          actualTranscodeStartPercent :=
            some (if st.maxDownloadProgress ≥ 0 then st.maxDownloadProgress
              else st.progressRanges.2)
          previousPercent :=
            if st.maxDownloadProgress ≥ 0 then st.maxDownloadProgress
            else st.progressRanges.2 },
        [if st.maxDownloadProgress ≥ 0 then st.maxDownloadProgress
          else st.progressRanges.2]) := by
  simp [ttStartTranscode, h]

theorem ttEmitPercent_writes (stt dur : Option ℚ) (st : TTState) (timeStr : String) :
    (∀ w ∈ (ttEmitPercent stt dur st timeStr).2, st.previousPercent < w) ∧
      st.previousPercent ≤ (ttEmitPercent stt dur st timeStr).1.previousPercent ∧
      (ttEmitPercent stt dur st timeStr).1.transcodingStarted = st.transcodingStarted := by
  simp only [ttEmitPercent]
  repeat' split
  all_goals
    refine ⟨fun w hw => ?_, ?_, ?_⟩
  all_goals
    first
    | rfl
    | exact le_refl _
    | exact absurd hw (List.not_mem_nil w)
    | (simp only [List.mem_singleton] at hw
       subst hw
       first
       | assumption
       | (simp_all only [Option.getD_some]
          assumption)
       | (simp_all
          omega)
       | omega)
    | exact le_of_lt (by assumption)
    | (simp_all only [Option.getD_some]
       exact le_of_lt (by assumption))
    | (simp_all
       omega)

theorem ttStep_writes_floor (stt dur : Option ℚ) (yp : Bool) (st : TTState) (e : TTEvent)
    (h : st.transcodingStarted = true) :
    (∀ w ∈ (ttStep stt dur yp st e).2.writes, st.previousPercent ≤ w) ∧
      st.previousPercent ≤ (ttStep stt dur yp st e).1.previousPercent ∧
      (ttStep stt dur yp st e).1.transcodingStarted = true := by
  rcases e with p | ⟨c, chunk⟩
  · simp [ttStep, updateDownloadProgress, h]
  · simp only [ttStep, ttStderrStep]
    obtain ⟨hp, hts, hmd⟩ :=
      ttApplyDurationMarker_fields stt dur st (parseFFmpegProgress chunk)
    by_cases hf : throwsOnSpecificStderr chunk
    · simp [hf, h]
    · simp only [hf, Bool.false_eq_true, if_false]
      by_cases htime : jsTruthyStr (parseFFmpegProgress chunk).time
      · simp only [htime, if_true]
        rcases c with _ | _
        · simp only [Bool.false_eq_true, if_false]
          rw [ttStartTranscode_started _ (hts.trans h)]
          obtain ⟨e1, e2, e3⟩ := ttEmitPercent_writes stt dur
            (ttApplyDurationMarker stt dur st (parseFFmpegProgress chunk))
            ((parseFFmpegProgress chunk).time.getD "")
          refine ⟨fun w hw => ?_, ?_, ?_⟩
          · simp only [List.nil_append] at hw
            exact le_of_lt (hp ▸ e1 w hw)
          · exact le_trans (le_of_eq hp.symm) e2
          · exact e3.trans (hts.trans h)
        · simp only [if_true]
          exact ⟨fun w hw => by simp at hw, le_of_eq hp.symm, hts.trans h⟩
      · simp only [htime, Bool.false_eq_true, if_false]
        exact ⟨fun w hw => by simp [noActions] at hw, le_of_eq hp.symm, hts.trans h⟩

theorem ttRun_writes_floor (stt dur : Option ℚ) (yp : Bool) :
    ∀ (events : List TTEvent) (st : TTState), st.transcodingStarted = true →
      ∀ w ∈ (ttRun stt dur yp st events).2, st.previousPercent ≤ w := by
  intro events
  induction events with
  | nil =>
    intro st _ w hw
    simp [ttRun] at hw
  | cons e es ih =>
    intro st h w hw
    rw [ttRun] at hw
    simp only [List.mem_append] at hw
    obtain ⟨h1, h2, h3⟩ := ttStep_writes_floor stt dur yp st e h
    rcases hw with hw | hw
    · exact h1 w hw
    · exact le_trans h2 (ih _ h3 w hw)

theorem ttStderrStep_start_write (stt dur : Option ℚ) (yp : Bool) (st : TTState)
    (chunk : String) (h0 : st.transcodingStarted = false)
    (hfatal : throwsOnSpecificStderr chunk = false)
    (htime : jsTruthyStr (parseFFmpegProgress chunk).time = true)
    (hdur : (parseFFmpegProgress chunk).duration = none) :
    ((ttStderrStep stt dur yp false st chunk).2).writes.head? =
      some (if st.maxDownloadProgress ≥ 0 then st.maxDownloadProgress
        else st.progressRanges.2) ∧
    ∀ w ∈ ((ttStderrStep stt dur yp false st chunk).2).writes,
      (if st.maxDownloadProgress ≥ 0 then st.maxDownloadProgress
        else st.progressRanges.2) ≤ w := by
  simp only [ttStderrStep, hfatal, Bool.false_eq_true, if_false, htime, if_true]
  obtain ⟨hr, hp, hts, hmd, has⟩ :=
    ttApplyDurationMarker_time_only stt dur st (parseFFmpegProgress chunk) hdur
  set stA := ttApplyDurationMarker stt dur st (parseFFmpegProgress chunk) with hstA
  have hval : (if stA.maxDownloadProgress ≥ 0 then stA.maxDownloadProgress
      else stA.progressRanges.2) =
      (if st.maxDownloadProgress ≥ 0 then st.maxDownloadProgress
        else st.progressRanges.2) := by
    rw [hmd, hr]
  rw [ttStartTranscode_not_started stA (hts.trans h0)]
  obtain ⟨e1, _, _⟩ := ttEmitPercent_writes stt dur
    ({ stA with
        transcodingStarted := true
        actualTranscodeStartPercent :=
          some (if stA.maxDownloadProgress ≥ 0 then stA.maxDownloadProgress
            else stA.progressRanges.2)
        previousPercent :=
          if stA.maxDownloadProgress ≥ 0 then stA.maxDownloadProgress
          else stA.progressRanges.2 })
    ((parseFFmpegProgress chunk).time.getD "")
  refine ⟨?_, fun w hw => ?_⟩
  · rw [List.cons_append, List.head?_cons, hval]
  · rw [List.cons_append] at hw
    rcases List.mem_cons.mp hw with hw | hw
    · exact le_of_eq (hval.symm.trans hw.symm)
    · have h2 : (if stA.maxDownloadProgress ≥ 0 then stA.maxDownloadProgress
          else stA.progressRanges.2) < w := e1 w hw
      exact le_of_lt (hval ▸ h2)

/-- C8 counterexample: with startTime 40 and duration 20 the band end is
13, but when the download phase last emitted 7 (a 50% report scaled into
the 13-wide band), the transcode phase begins reporting at 7 — lower than
13 — refuting that it never starts below the band end. -/
theorem c8_counterexample :
    calculateProgressRanges (some 40) (some 20) none = (13, 13) ∧
      (ttRun (some 40) (some 20) true (initTTState (some 40) (some 20))
          [TTEvent.download 50, TTEvent.stderr false "time=00:00:01.00 bitrate=x"]).2 =
        [7, 7, 12] ∧
      (7 : ℤ) < 13 := by
  have hthrow : throwsOnSpecificStderr "time=00:00:01.00 bitrate=x" = false := by decide
  have hparse : parseFFmpegProgress "time=00:00:01.00 bitrate=x" =
      { time := some "00:00:01.00", duration := none } := by decide
  have hconv : convertStringToMilliseconds "00:00:01.00" = 1000 := by decide
  refine ⟨?_, ?_, by norm_num⟩
  · rw [calculateProgressRanges]
    norm_num [jsTruthy, jsOr, jsMinI, jsRound, round_eq]
  · norm_num [ttRun, ttStep, updateDownloadProgress, ttStderrStep, ttApplyDurationMarker,
      ttStartTranscode, ttEmitPercent, initTTState, calculateProgressRanges, hthrow,
      hparse, hconv, jsTruthy, jsTruthyStr, jsTruthyInt, jsOr, jsMinI, jsRound, jsFloor,
      round_eq]
    decide

/-- C8 (amended): the acquisition band end for startTime 40, duration 20
is min(98, round((40/60)/5*98)) = 13 and the configured transcode start
equals it; the transcode phase begins reporting at the maximum progress
value the download phase emitted when one exists (the configured start 13
only when none was emitted), every write of that first event is at least
this starting value, and from any started state no later write falls below
the previousPercent floor. -/
theorem c8_band_and_transcode_start :
    (calculateProgressRanges (some 40) (some 20) none = (13, 13) ∧
      jsMinI 98 (jsRound ((40 : ℚ) / 60 / 5 * 98)) = 13) ∧
    (∀ (stt dur : Option ℚ) (yp : Bool) (st : TTState) (chunk : String),
      st.transcodingStarted = false →
      throwsOnSpecificStderr chunk = false →
      jsTruthyStr (parseFFmpegProgress chunk).time = true →
      (parseFFmpegProgress chunk).duration = none →
      ((ttStderrStep stt dur yp false st chunk).2).writes.head? =
        some (if st.maxDownloadProgress ≥ 0 then st.maxDownloadProgress
          else st.progressRanges.2) ∧
      ∀ w ∈ ((ttStderrStep stt dur yp false st chunk).2).writes,
        (if st.maxDownloadProgress ≥ 0 then st.maxDownloadProgress
          else st.progressRanges.2) ≤ w) ∧
    (∀ (stt dur : Option ℚ) (yp : Bool) (events : List TTEvent) (st : TTState),
      st.transcodingStarted = true →
      ∀ w ∈ (ttRun stt dur yp st events).2, st.previousPercent ≤ w) := by
  refine ⟨⟨?_, ?_⟩, ?_, ?_⟩
  · rw [calculateProgressRanges]
    norm_num [jsTruthy, jsOr, jsMinI, jsRound, round_eq]
  · rw [jsMinI, jsRound, round_eq]
    norm_num
  · intro stt dur yp st chunk h0 hfatal htime hdur
    exact ttStderrStep_start_write stt dur yp st chunk h0 hfatal htime hdur
  · intro stt dur yp events st h
    exact ttRun_writes_floor stt dur yp events st h

/-- Witness for C8 at a state where the download phase last emitted 7. -/
theorem c8_band_witness :
    ((⟨(13, 13), 7, 4, false, none, false, -1, none⟩ : TTState).transcodingStarted = false ∧
      throwsOnSpecificStderr "time=00:00:01.00 bitrate=x" = false ∧
      jsTruthyStr (parseFFmpegProgress "time=00:00:01.00 bitrate=x").time = true ∧
      (parseFFmpegProgress "time=00:00:01.00 bitrate=x").duration = none ∧
      ((ttStderrStep (some 40) (some 20) true false
          ⟨(13, 13), 7, 4, false, none, false, -1, none⟩
          "time=00:00:01.00 bitrate=x").2).writes.head? =
        some (if (7 : ℤ) ≥ 0 then 7 else 13)) ∧
    ((⟨(13, 13), 7, 4, true, none, false, 7, some 7⟩ : TTState).transcodingStarted = true ∧
      ∀ w ∈ (ttRun (some 40) (some 20) true ⟨(13, 13), 7, 4, true, none, false, 7, some 7⟩
          [TTEvent.stderr false "time=00:00:01.00 bitrate=x"]).2, (7 : ℤ) ≤ w) :=
  ⟨⟨rfl, by decide, by decide, by decide,
      (c8_band_and_transcode_start.2.1 (some 40) (some 20) true
        ⟨(13, 13), 7, 4, false, none, false, -1, none⟩ "time=00:00:01.00 bitrate=x"
        rfl (by decide) (by decide) (by decide)).1⟩,
    rfl,
    c8_band_and_transcode_start.2.2 (some 40) (some 20) true
      [TTEvent.stderr false "time=00:00:01.00 bitrate=x"]
      ⟨(13, 13), 7, 4, true, none, false, 7, some 7⟩ rfl⟩
